import Mathlib

/-!
Shallow embedding of the FluxDefense EDR agent core (policy store, passive
monitor, behavioral pattern matcher with process-chain tracker, and event
correlator) together with theorems checking the specification claims.

Modelling conventions:
* Rust `HashSet< >` and `HashMap< >` become lists with insert-if-absent,
  or total functions into `Option`.
* `Instant` / `DateTime` timestamps become `Nat`; `Duration` becomes a
  number of seconds; `Instant - Duration` becomes truncated `Nat`
  subtraction.
* `PathBuf` is carried as a `String`; `Path::starts_with` and `Path`
  equality use path components (split on the slash), matching the
  component-wise semantics of the Rust standard library.
* External library behaviour that is not part of this repository (the
  `regex` engine, `IpAddr::from_str` parsing) is abstracted as function
  parameters, so theorems hold for every behaviour of those libraries.
-/

/-- A contiguous-sublist test on lists (Rust `str::contains` semantics
once both strings are viewed as character lists). -/
def listInfix {α : Type} [DecidableEq α] : List α → List α → Bool
  | pat, [] => pat.isEmpty
  | pat, a :: t => pat.isPrefixOf (a :: t) || listInfix pat t

/-- Rust `str::contains` on strings: the needle occurs as a contiguous
substring of the haystack. -/
def strContainsStr (s pat : String) : Bool :=
  listInfix pat.toList s.toList

/-- Rust `str::starts_with` on strings. -/
def strStartsWith (s pat : String) : Bool :=
  pat.toList.isPrefixOf s.toList

/-- Rust `str::ends_with` on strings. -/
def strEndsWith (s pat : String) : Bool :=
  pat.toList.reverse.isPrefixOf s.toList.reverse

/-- Rust `str::to_lowercase` (ASCII-faithful model). -/
def strToLower (s : String) : String :=
  String.mk (s.toList.map Char.toLower)

/-- Rust `HashSet::insert`: add the element when absent (sets never hold
duplicates). -/
def insertSet {α : Type} [DecidableEq α] (l : List α) (a : α) : List α :=
  if a ∈ l then l else a :: l

/-- Components of a path string, used to model the component-wise
`Path::starts_with` / `Path` equality of the Rust standard library. -/
def pathComponents (s : String) : List String :=
  (s.splitOn "/").filter (fun c => c ≠ "")

/-- Rust `Path::starts_with` (component-wise prefix). -/
def pathStartsWith (p base : String) : Bool :=
  (pathComponents base).isPrefixOf (pathComponents p)

/-- Rust `Path` equality (component-wise). -/
def pathEq (p q : String) : Bool :=
  pathComponents p = pathComponents q

/-- Rust `Path::file_name` rendered as a string (last component, or the
empty string). -/
def pathFileName (p : String) : String :=
  ((pathComponents p).getLast?).getD ""

namespace Policy

/-- `std::net::IpAddr`: a v4 address as four octets or a v6 address as
eight 16-bit segments. -/
inductive IpAddr where
  | v4 (a b c d : Nat)
  | v6 (segments : List Nat)
deriving DecidableEq

/-- `Ipv4Addr::is_private` (10/8, 172.16/12, 192.168/16). -/
def ipv4IsPrivate (a b : Nat) : Bool :=
  a == 10 || (a == 172 && 16 ≤ b && b ≤ 31) || (a == 192 && b == 168)

/-- `Ipv4Addr::is_loopback` (127/8). -/
def ipv4IsLoopback (a : Nat) : Bool := a == 127

/-- `Ipv4Addr::is_link_local` (169.254/16). -/
def ipv4IsLinkLocal (a b : Nat) : Bool := a == 169 && b == 254

/-- src/policy/network_policy.rs `NetworkPolicy`: six allow/deny sets and
two toggles. -/
structure NetworkPolicy where
  allowed_ips : List IpAddr
  allowed_domains : List String
  allowed_ports : List Nat
  blocked_ips : List IpAddr
  blocked_domains : List String
  blocked_ports : List Nat
  allow_local_network : Bool
  allow_system_processes : Bool
deriving DecidableEq

namespace NetworkPolicy

/-- `NetworkPolicy::is_local_ip`. -/
def is_local_ip (_p : NetworkPolicy) (ip : IpAddr) : Bool :=
  match ip with
  | .v4 a b _ _ =>
      ipv4IsPrivate a b || ipv4IsLoopback a || ipv4IsLinkLocal a b
  | .v6 segments =>
      (segments == [0, 0, 0, 0, 0, 0, 0, 1]) ||
      (segments == [0, 0, 0, 0, 0, 0, 0, 0]) ||
      ((segments.getD 0 0) &&& 0xfe00) == 0xfc00 ||
      ((segments.getD 0 0) &&& 0xffc0) == 0xfe80

/-- `NetworkPolicy::is_ip_allowed`: blocked set first, then allowed set,
then the local-network toggle. -/
def is_ip_allowed (p : NetworkPolicy) (ip : IpAddr) : Bool :=
  if p.blocked_ips.contains ip then false
  else if p.allowed_ips.contains ip then true
  else if p.allow_local_network && p.is_local_ip ip then true
  else false

/-- `NetworkPolicy::is_domain_allowed`: a blocked suffix denies, an
allowed suffix allows, otherwise deny. -/
def is_domain_allowed (p : NetworkPolicy) (domain : String) : Bool :=
  if p.blocked_domains.any (fun bd => strEndsWith domain bd) then false
  else if p.allowed_domains.any (fun ad => strEndsWith domain ad) then true
  else false

/-- `NetworkPolicy::is_port_allowed`: blocked set first, then allowed set,
otherwise deny. -/
def is_port_allowed (p : NetworkPolicy) (port : Nat) : Bool :=
  if p.blocked_ports.contains port then false
  else if p.allowed_ports.contains port then true
  else false

/-- `NetworkPolicy::is_connection_allowed`: port check, then optional
domain check, then IP check; each must pass. -/
def is_connection_allowed (p : NetworkPolicy) (remote_ip : IpAddr)
    (remote_port : Nat) (domain : Option String) : Bool :=
  if !(p.is_port_allowed remote_port) then false
  else
    match domain with
    | some d => if !(p.is_domain_allowed d) then false else p.is_ip_allowed remote_ip
    | none => p.is_ip_allowed remote_ip

/-- `NetworkPolicy::add_allowed_ip` (returns unit in the source; the
state update is the whole effect). -/
def add_allowed_ip (p : NetworkPolicy) (ip : IpAddr) : NetworkPolicy :=
  { p with allowed_ips := insertSet p.allowed_ips ip }

/-- `NetworkPolicy::add_allowed_domain`. -/
def add_allowed_domain (p : NetworkPolicy) (d : String) : NetworkPolicy :=
  { p with allowed_domains := insertSet p.allowed_domains d }

/-- `NetworkPolicy::add_allowed_port`. -/
def add_allowed_port (p : NetworkPolicy) (port : Nat) : NetworkPolicy :=
  { p with allowed_ports := insertSet p.allowed_ports port }

/-- `NetworkPolicy::add_blocked_ip`. -/
def add_blocked_ip (p : NetworkPolicy) (ip : IpAddr) : NetworkPolicy :=
  { p with blocked_ips := insertSet p.blocked_ips ip }

/-- `NetworkPolicy::add_blocked_domain`. -/
def add_blocked_domain (p : NetworkPolicy) (d : String) : NetworkPolicy :=
  { p with blocked_domains := insertSet p.blocked_domains d }

/-- `NetworkPolicy::add_blocked_port`. -/
def add_blocked_port (p : NetworkPolicy) (port : Nat) : NetworkPolicy :=
  { p with blocked_ports := insertSet p.blocked_ports port }

end NetworkPolicy

/-- src/policy/file_policy.rs `FilePolicy`. -/
structure FilePolicy where
  allowed_paths : List String
  allowed_hashes : List String
  allowed_signers : List String
  trusted_directories : List String
  system_paths : List String
deriving DecidableEq

namespace FilePolicy

/-- `FilePolicy::is_path_allowed`: exact allowed path, then trusted
directories, then system paths (component-wise matching). -/
def is_path_allowed (fp : FilePolicy) (path : String) : Bool :=
  if fp.allowed_paths.any (fun q => pathEq path q) then true
  else if fp.trusted_directories.any (fun d => pathStartsWith path d) then true
  else if fp.system_paths.any (fun d => pathStartsWith path d) then true
  else false

/-- `FilePolicy::is_hash_allowed`. -/
def is_hash_allowed (fp : FilePolicy) (hash : String) : Bool :=
  fp.allowed_hashes.contains hash

/-- `FilePolicy::is_signer_allowed`: the configured set, then the
hard-coded trust of any signer containing Apple or Developer ID
Application. -/
def is_signer_allowed (fp : FilePolicy) (signer : String) : Bool :=
  if fp.allowed_signers.contains signer then true
  else if strContainsStr signer "Apple" || strContainsStr signer "Developer ID Application" then true
  else false

/-- `FilePolicy::is_execution_allowed`: path, then optional hash, then
optional signer; any success allows. -/
def is_execution_allowed (fp : FilePolicy) (path : String)
    (hash : Option String) (signer : Option String) : Bool :=
  if fp.is_path_allowed path then true
  else if hash.any (fun h => fp.is_hash_allowed h) then true
  else if signer.any (fun s => fp.is_signer_allowed s) then true
  else false

end FilePolicy

/-- An empty file policy (all sets empty). -/
def emptyFilePolicy : FilePolicy := ⟨[], [], [], [], []⟩

/-- An empty network policy with the local-network toggle on (as in the
source default). -/
def emptyNetworkPolicy : NetworkPolicy := ⟨[], [], [], [], [], [], true, true⟩

end Policy

lemma mem_insertSet_self {α : Type} [DecidableEq α] (l : List α) (a : α) :
    a ∈ insertSet l a := by
  unfold insertSet
  by_cases h : a ∈ l <;> simp [h]

lemma contains_insertSet {α : Type} [DecidableEq α] (l : List α) (a : α) :
    (insertSet l a).contains a = true := by
  have := mem_insertSet_self l a
  simpa using this

lemma listIsPrefixOf_refl {α : Type} [DecidableEq α] (l : List α) :
    l.isPrefixOf l = true := by
  induction l with
  | nil => rfl
  | cons a t ih => simp [List.isPrefixOf, ih]

lemma strEndsWith_refl (s : String) : strEndsWith s s = true :=
  listIsPrefixOf_refl _

lemma Policy.NetworkPolicy.is_port_allowed_eq (p : Policy.NetworkPolicy) (port : Nat) :
    p.is_port_allowed port
      = (!p.blocked_ports.contains port && p.allowed_ports.contains port) := by
  unfold Policy.NetworkPolicy.is_port_allowed
  by_cases hb : p.blocked_ports.contains port <;>
    by_cases ha : p.allowed_ports.contains port <;> simp [hb, ha]

lemma Policy.NetworkPolicy.is_ip_allowed_false_of_blocked (p : Policy.NetworkPolicy)
    (ip : Policy.IpAddr) (h : p.blocked_ips.contains ip = true) :
    p.is_ip_allowed ip = false := by
  unfold Policy.NetworkPolicy.is_ip_allowed
  rw [h]
  simp

lemma Policy.NetworkPolicy.is_domain_allowed_false_of_blocked (p : Policy.NetworkPolicy)
    (dom : String) (h : p.blocked_domains.any (fun bd => strEndsWith dom bd) = true) :
    p.is_domain_allowed dom = false := by
  unfold Policy.NetworkPolicy.is_domain_allowed
  rw [h]
  simp

/-- C10: any signer string containing Apple or Developer ID Application is
accepted by `is_signer_allowed`, and therefore `is_execution_allowed`
permits any path when such a signer is supplied, whatever the configured
sets. -/
theorem c10_signer_bypass (fp : Policy.FilePolicy) (signer path : String)
    (hash : Option String)
    (h : strContainsStr signer "Apple" = true ∨
         strContainsStr signer "Developer ID Application" = true) :
    fp.is_signer_allowed signer = true ∧
    fp.is_execution_allowed path hash (some signer) = true := by
  have hs : fp.is_signer_allowed signer = true := by
    unfold Policy.FilePolicy.is_signer_allowed
    rcases h with h | h <;> by_cases hc : fp.allowed_signers.contains signer <;>
      simp [h, hc]
  refine ⟨hs, ?_⟩
  unfold Policy.FilePolicy.is_execution_allowed
  by_cases hp : fp.is_path_allowed path <;>
    by_cases hh : hash.any (fun h => fp.is_hash_allowed h) <;>
      simp [hp, hh, hs, Option.any]

/-- C10 witness: the empty policy accepts the signer Apple Inc. and allows
executing an arbitrary path with it. -/
theorem c10_signer_bypass_witness :
    Policy.emptyFilePolicy.is_signer_allowed "Apple Inc." = true ∧
    Policy.emptyFilePolicy.is_execution_allowed "/tmp/malware" none (some "Apple Inc.") = true :=
  c10_signer_bypass Policy.emptyFilePolicy "Apple Inc." "/tmp/malware" none
    (Or.inl (by decide))

/-- A policy whose allowed-address set holds 8.8.8.8 while both port sets
are empty. -/
def c2Policy : Policy.NetworkPolicy :=
  ⟨[Policy.IpAddr.v4 8 8 8 8], [], [], [], [], [], true, true⟩

/-- C2 counterexample: a remote port in neither port set does not fall
through to the address kind — the connection is denied even though the
remote address is in the allowed-address set. -/
theorem c2_port_fallthrough_counterexample :
    c2Policy.allowed_ports.contains 12345 = false
    ∧ c2Policy.blocked_ports.contains 12345 = false
    ∧ c2Policy.allowed_ips.contains (Policy.IpAddr.v4 8 8 8 8) = true
    ∧ c2Policy.is_connection_allowed (Policy.IpAddr.v4 8 8 8 8) 12345 none = false := by
  decide

/-- C2 amended: `is_connection_allowed` is a conjunction of per-kind
checks rather than a fallthrough chain — a port outside the allowed set
(or inside the blocked set) denies the connection outright, and the
address kind is only consulted once the port check passes. -/
theorem c2_connection_eval_amended (p : Policy.NetworkPolicy)
    (ip : Policy.IpAddr) (port : Nat) (dom : Option String) :
    (p.allowed_ports.contains port = false ∨ p.blocked_ports.contains port = true →
      p.is_connection_allowed ip port dom = false)
    ∧ (p.allowed_ports.contains port = true → p.blocked_ports.contains port = false →
      p.is_connection_allowed ip port none = p.is_ip_allowed ip) := by
  constructor
  · intro h
    have hport : p.is_port_allowed port = false := by
      rw [Policy.NetworkPolicy.is_port_allowed_eq]
      rcases h with h | h <;> · simp at h; simp [h]
    unfold Policy.NetworkPolicy.is_connection_allowed
    rw [hport]
    simp
  · intro ha hb
    have hport : p.is_port_allowed port = true := by
      rw [Policy.NetworkPolicy.is_port_allowed_eq]
      simp at ha hb
      simp [ha, hb]
    unfold Policy.NetworkPolicy.is_connection_allowed
    rw [hport]
    simp

/-- A policy allowing only port 443. -/
def c2wPolicy : Policy.NetworkPolicy := ⟨[], [], [443], [], [], [], true, true⟩

/-- C2 amended witness: port 12345 (in neither set) is denied; port 443
(allowed) reduces the decision to the IP check. -/
theorem c2_connection_eval_amended_witness :
    c2wPolicy.is_connection_allowed (Policy.IpAddr.v4 8 8 8 8) 12345 none = false
    ∧ c2wPolicy.is_connection_allowed (Policy.IpAddr.v4 8 8 8 8) 443 none
        = c2wPolicy.is_ip_allowed (Policy.IpAddr.v4 8 8 8 8) :=
  ⟨(c2_connection_eval_amended c2wPolicy (Policy.IpAddr.v4 8 8 8 8) 12345 none).1
      (Or.inl (by decide)),
   (c2_connection_eval_amended c2wPolicy (Policy.IpAddr.v4 8 8 8 8) 443 none).2
      (by decide) (by decide)⟩

/-- A policy whose allowed-port set already holds 9090. -/
def c3Policy : Policy.NetworkPolicy := ⟨[], [], [9090], [], [], [], true, true⟩

/-- C3 counterexample: blocking port 9090 while it is in the allowed set
is not rejected — the write goes through, the state changes, and the port
ends up in both sets. -/
theorem c3_conflict_write_counterexample :
    (c3Policy.add_blocked_port 9090).blocked_ports.contains 9090 = true
    ∧ c3Policy.blocked_ports.contains 9090 = false
    ∧ (c3Policy.add_blocked_port 9090).allowed_ports.contains 9090 = true
    ∧ (c3Policy.add_blocked_port 9090) ≠ c3Policy := by
  decide

/-- C3 amended: the add-blocked and add-allowed writers never fail in
either direction of a conflict; each inserts the key into its target set
and leaves the opposite set of the same kind untouched (so a key can sit
in both sets), and the conflict is resolved at evaluation time because
the blocked set is checked first (deny wins), also when the key was
blocked first and then allowed. -/
theorem c3_blocked_insert_amended (p : Policy.NetworkPolicy) (port : Nat)
    (ip : Policy.IpAddr) (d : String) :
    ((p.add_blocked_port port).blocked_ports.contains port = true
      ∧ (p.add_blocked_port port).allowed_ports = p.allowed_ports
      ∧ (p.add_blocked_port port).is_port_allowed port = false)
    ∧ ((p.add_blocked_ip ip).blocked_ips.contains ip = true
      ∧ (p.add_blocked_ip ip).allowed_ips = p.allowed_ips
      ∧ (p.add_blocked_ip ip).is_ip_allowed ip = false)
    ∧ ((p.add_blocked_domain d).blocked_domains.contains d = true
      ∧ (p.add_blocked_domain d).allowed_domains = p.allowed_domains
      ∧ (p.add_blocked_domain d).is_domain_allowed d = false)
    ∧ ((p.add_allowed_port port).allowed_ports.contains port = true
      ∧ (p.add_allowed_port port).blocked_ports = p.blocked_ports
      ∧ (p.blocked_ports.contains port = true →
          (p.add_allowed_port port).is_port_allowed port = false))
    ∧ ((p.add_allowed_ip ip).allowed_ips.contains ip = true
      ∧ (p.add_allowed_ip ip).blocked_ips = p.blocked_ips
      ∧ (p.blocked_ips.contains ip = true →
          (p.add_allowed_ip ip).is_ip_allowed ip = false))
    ∧ ((p.add_allowed_domain d).allowed_domains.contains d = true
      ∧ (p.add_allowed_domain d).blocked_domains = p.blocked_domains
      ∧ (p.blocked_domains.contains d = true →
          (p.add_allowed_domain d).is_domain_allowed d = false)) := by
  refine ⟨⟨contains_insertSet _ _, rfl, ?_⟩,
          ⟨contains_insertSet _ _, rfl, ?_⟩,
          ⟨contains_insertSet _ _, rfl, ?_⟩,
          ⟨contains_insertSet _ _, rfl, ?_⟩,
          ⟨contains_insertSet _ _, rfl, ?_⟩,
          ⟨contains_insertSet _ _, rfl, ?_⟩⟩
  · rw [Policy.NetworkPolicy.is_port_allowed_eq]
    have hb : (p.add_blocked_port port).blocked_ports.contains port = true :=
      contains_insertSet _ _
    simp at hb
    simp [hb]
  · exact Policy.NetworkPolicy.is_ip_allowed_false_of_blocked _ _ (contains_insertSet _ _)
  · refine Policy.NetworkPolicy.is_domain_allowed_false_of_blocked _ _ ?_
    exact List.any_eq_true.mpr ⟨d, mem_insertSet_self _ _, strEndsWith_refl d⟩
  · intro hb
    rw [Policy.NetworkPolicy.is_port_allowed_eq]
    have hb' : (p.add_allowed_port port).blocked_ports.contains port = true := hb
    simp at hb'
    simp [hb']
  · intro hb
    exact Policy.NetworkPolicy.is_ip_allowed_false_of_blocked _ _ hb
  · intro hb
    refine Policy.NetworkPolicy.is_domain_allowed_false_of_blocked _ _ ?_
    exact List.any_eq_true.mpr ⟨d, List.elem_iff.mp hb, strEndsWith_refl d⟩

/-- A policy whose blocked sets already hold port 8443, address 9.9.9.9
and the domain evil.com. -/
def c3wPolicy : Policy.NetworkPolicy :=
  ⟨[], [], [], [Policy.IpAddr.v4 9 9 9 9], ["evil.com"], [8443], true, true⟩

/-- C3 amended witness: allow-writes for keys already in the blocked sets
also go through, and deny still wins at evaluation for all three kinds. -/
theorem c3_blocked_insert_amended_witness :
    (c3wPolicy.add_allowed_port 8443).is_port_allowed 8443 = false
    ∧ (c3wPolicy.add_allowed_ip (Policy.IpAddr.v4 9 9 9 9)).is_ip_allowed
        (Policy.IpAddr.v4 9 9 9 9) = false
    ∧ (c3wPolicy.add_allowed_domain "evil.com").is_domain_allowed
        "evil.com" = false :=
  ⟨(c3_blocked_insert_amended c3wPolicy 8443 (Policy.IpAddr.v4 9 9 9 9)
      "evil.com").2.2.2.1.2.2 (by decide),
   (c3_blocked_insert_amended c3wPolicy 8443 (Policy.IpAddr.v4 9 9 9 9)
      "evil.com").2.2.2.2.1.2.2 (by decide),
   (c3_blocked_insert_amended c3wPolicy 8443 (Policy.IpAddr.v4 9 9 9 9)
      "evil.com").2.2.2.2.2.2.2 (by decide)⟩

namespace Monitor

/-- src/monitor.rs `Verdict`. -/
inductive Verdict where
  | allow
  | deny
  | log
deriving DecidableEq

/-- The lower-cased debug rendering of a verdict, used as a statistics
key. -/
def Verdict.key : Verdict → String
  | .allow => "allow"
  | .deny => "deny"
  | .log => "log"

/-- src/monitor.rs `FileAccessType`. -/
inductive FileAccessType where
  | read
  | write
  | execute
  | create
  | delete
deriving DecidableEq

/-- src/monitor.rs `NetworkProtocol`. -/
inductive NetworkProtocol where
  | tcp
  | udp
  | icmp
deriving DecidableEq

/-- src/monitor.rs `SecurityEventType`. -/
inductive SecurityEventType where
  | fileExecution (target_path : String) (file_hash : Option String)
      (code_signature : Option String)
  | fileAccess (target_path : String) (access_type : FileAccessType)
  | networkConnection (remote_ip : String) (remote_port : Nat)
      (domain : Option String) (protocol : NetworkProtocol)
deriving DecidableEq

/-- `SecurityEventType::type_name` (src/linux_security/event_correlation.rs). -/
def SecurityEventType.type_name : SecurityEventType → String
  | .fileExecution _ _ _ => "file_execution"
  | .fileAccess _ _ => "file_access"
  | .networkConnection _ _ _ _ => "network_connection"

/-- src/monitor.rs `ProcessInfo`. -/
structure ProcessInfo where
  pid : Nat
  path : String
  parent_pid : Option Nat
  user_id : Nat
  executable_hash : Option String
  command_line : Option String
deriving DecidableEq

/-- src/monitor.rs `SecurityEvent`. -/
structure SecurityEvent where
  id : String
  timestamp : Nat
  event_type : SecurityEventType
  process_info : ProcessInfo
  verdict : Verdict
  policy_reason : String
deriving DecidableEq

/-- src/monitor.rs `EventStatistics` (the maps become association
lists). -/
structure EventStatistics where
  total_events : Nat
  events_by_type : List (String × Nat)
  events_by_verdict : List (String × Nat)
  unique_processes : Nat
  unique_files : Nat
  start_time : Nat
  last_updated : Nat
deriving DecidableEq

/-- `HashMap::entry(k).or_insert(0) += 1`. -/
def bumpCount : List (String × Nat) → String → List (String × Nat)
  | [], key => [(key, 1)]
  | (k, v) :: rest, key =>
      if k = key then (k, v + 1) :: rest else (k, v) :: bumpCount rest key

/-- src/monitor.rs `PassiveMonitor` (the in-memory state; the log file
path and metrics collector are I/O plumbing outside the model). -/
structure PassiveMonitor where
  events : List SecurityEvent
  statistics : EventStatistics
  file_policy : Policy.FilePolicy
  network_policy : Policy.NetworkPolicy
  passive_mode : Bool

/-- `PassiveMonitor::log_event`: append to the in-memory store and update
the statistics (`now` models the `Utc::now()` call for `last_updated`). -/
def log_event (st : PassiveMonitor) (event : SecurityEvent) (now : Nat) :
    PassiveMonitor :=
  { st with
    events := st.events ++ [event]
    statistics :=
      { st.statistics with
        total_events := st.statistics.total_events + 1
        last_updated := now
        events_by_type :=
          bumpCount st.statistics.events_by_type event.event_type.type_name
        events_by_verdict :=
          bumpCount st.statistics.events_by_verdict event.verdict.key } }

/-- `PassiveMonitor::evaluate_file_policy`. -/
def evaluate_file_policy (st : PassiveMonitor) (path : String)
    (hash : Option String) (signer : Option String) : Verdict × String :=
  if st.file_policy.is_execution_allowed path hash signer then
    (Verdict.allow, "File execution allowed by policy")
  else
    (Verdict.deny, "File execution denied by policy")

/-- `PassiveMonitor::handle_file_execution_event` (`id` models
`Uuid::new_v4()`, `ts` models `Utc::now()`). -/
def handle_file_execution_event (st : PassiveMonitor) (id : String) (ts : Nat)
    (process_info : ProcessInfo) (target_path : String)
    (file_hash : Option String) (code_signature : Option String) :
    Verdict × PassiveMonitor :=
  let event_type := SecurityEventType.fileExecution target_path file_hash code_signature
  let vr :=
    if st.passive_mode then (Verdict.log, "Passive mode - logging only")
    else evaluate_file_policy st target_path file_hash code_signature
  let event : SecurityEvent := ⟨id, ts, event_type, process_info, vr.1, vr.2⟩
  (vr.1, log_event st event ts)

/-- `PassiveMonitor::handle_file_access_event`. -/
def handle_file_access_event (st : PassiveMonitor) (id : String) (ts : Nat)
    (process_info : ProcessInfo) (target_path : String)
    (access_type : FileAccessType) : Verdict × PassiveMonitor :=
  let event_type := SecurityEventType.fileAccess target_path access_type
  let vr :=
    if st.passive_mode then (Verdict.log, "Passive mode - logging only")
    else if st.file_policy.is_path_allowed target_path then
      (Verdict.allow, "Path in whitelist")
    else
      (Verdict.deny, "Path not in whitelist")
  let event : SecurityEvent := ⟨id, ts, event_type, process_info, vr.1, vr.2⟩
  (vr.1, log_event st event ts)

/-- `PassiveMonitor::handle_network_connection_event` (`parseIp` abstracts
the standard-library `str::parse::<IpAddr>`). -/
def handle_network_connection_event (parseIp : String → Option Policy.IpAddr)
    (st : PassiveMonitor) (id : String) (ts : Nat) (process_info : ProcessInfo)
    (remote_ip : String) (remote_port : Nat) (domain : Option String)
    (protocol : NetworkProtocol) : Verdict × PassiveMonitor :=
  let event_type := SecurityEventType.networkConnection remote_ip remote_port domain protocol
  if st.passive_mode then
    let event : SecurityEvent :=
      ⟨id, ts, event_type, process_info, Verdict.log, "Passive mode - logging only"⟩
    (Verdict.log, log_event st event ts)
  else
    match parseIp remote_ip with
    | none =>
        let event : SecurityEvent :=
          ⟨id, ts, event_type, process_info, Verdict.deny, "Invalid IP address"⟩
        (Verdict.deny, log_event st event ts)
    | some ip =>
        let vr :=
          if st.network_policy.is_connection_allowed ip remote_port domain then
            (Verdict.allow, "Connection allowed by policy")
          else
            (Verdict.deny, "Connection denied by policy")
        let event : SecurityEvent := ⟨id, ts, event_type, process_info, vr.1, vr.2⟩
        (vr.1, log_event st event ts)

/-- One handler invocation with its inputs. -/
inductive MonitorCall where
  | fileExecution (id : String) (ts : Nat) (pi : ProcessInfo)
      (target_path : String) (file_hash : Option String)
      (code_signature : Option String)
  | fileAccess (id : String) (ts : Nat) (pi : ProcessInfo)
      (target_path : String) (access_type : FileAccessType)
  | networkConnection (id : String) (ts : Nat) (pi : ProcessInfo)
      (remote_ip : String) (remote_port : Nat) (domain : Option String)
      (protocol : NetworkProtocol)

/-- Dispatch one handler invocation. -/
def applyCall (parseIp : String → Option Policy.IpAddr) (st : PassiveMonitor) :
    MonitorCall → Verdict × PassiveMonitor
  | .fileExecution id ts pi target hash sig =>
      handle_file_execution_event st id ts pi target hash sig
  | .fileAccess id ts pi target at_ =>
      handle_file_access_event st id ts pi target at_
  | .networkConnection id ts pi rip rport dom proto =>
      handle_network_connection_event parseIp st id ts pi rip rport dom proto

/-- Run a sequence of handler invocations, collecting the returned
verdicts. -/
def runCalls (parseIp : String → Option Policy.IpAddr) (st : PassiveMonitor) :
    List MonitorCall → PassiveMonitor × List Verdict
  | [] => (st, [])
  | c :: rest =>
      let r := applyCall parseIp st c
      let rr := runCalls parseIp r.2 rest
      (rr.1, r.1 :: rr.2)

end Monitor

lemma Monitor.applyCall_passive (parseIp : String → Option Policy.IpAddr)
    (st : Monitor.PassiveMonitor) (c : Monitor.MonitorCall)
    (h : st.passive_mode = true) :
    (Monitor.applyCall parseIp st c).1 = Monitor.Verdict.log
    ∧ (Monitor.applyCall parseIp st c).2.passive_mode = true
    ∧ ∀ ev ∈ (Monitor.applyCall parseIp st c).2.events,
        ev ∈ st.events ∨ ev.verdict = Monitor.Verdict.log := by
  cases c <;>
    · refine ⟨?_, ?_, ?_⟩ <;>
        simp [Monitor.applyCall, Monitor.handle_file_execution_event,
          Monitor.handle_file_access_event, Monitor.handle_network_connection_event,
          Monitor.log_event, h]
      intro ev hev
      rcases hev with hev | rfl
      · exact Or.inl hev
      · exact Or.inr rfl

/-- C1: with the monitor in passive mode, every handler (file execution,
file access, network connection), over any sequence of handled events,
returns the verdict Log (never Deny), and every event recorded in the
monitor log carries a Log verdict. -/
theorem c1_passive_mode_only_logs (parseIp : String → Option Policy.IpAddr)
    (st : Monitor.PassiveMonitor) (calls : List Monitor.MonitorCall)
    (h : st.passive_mode = true) :
    (∀ v ∈ (Monitor.runCalls parseIp st calls).2, v = Monitor.Verdict.log)
    ∧ (∀ ev ∈ (Monitor.runCalls parseIp st calls).1.events,
        ev ∈ st.events ∨ ev.verdict = Monitor.Verdict.log) := by
  induction calls generalizing st with
  | nil =>
      refine ⟨by simp [Monitor.runCalls], ?_⟩
      intro ev hev
      exact Or.inl (by simpa [Monitor.runCalls] using hev)
  | cons c rest ih =>
      obtain ⟨hv, hp, hm⟩ := Monitor.applyCall_passive parseIp st c h
      obtain ⟨ihv, ihm⟩ := ih (Monitor.applyCall parseIp st c).2 hp
      refine ⟨?_, ?_⟩
      · intro v hvmem
        simp only [Monitor.runCalls, List.mem_cons] at hvmem
        rcases hvmem with rfl | hvm
        · exact hv
        · exact ihv v hvm
      · intro ev hev
        simp only [Monitor.runCalls] at hev
        rcases ihm ev hev with hin | hl
        · exact hm ev hin
        · exact Or.inr hl

/-- A passive monitor with empty state and policies. -/
def c1State : Monitor.PassiveMonitor :=
  { events := []
    statistics := ⟨0, [], [], 0, 0, 0, 0⟩
    file_policy := Policy.emptyFilePolicy
    network_policy := Policy.emptyNetworkPolicy
    passive_mode := true }

/-- A concrete process for the C1 witness run. -/
def c1PInfo : Monitor.ProcessInfo := ⟨100, "/bin/bash", some 1, 0, none, some "bash"⟩

/-- One handler call of each kind. -/
def c1Calls : List Monitor.MonitorCall :=
  [ .fileExecution "e1" 10 c1PInfo "/usr/bin/ls" none none,
    .fileAccess "e2" 11 c1PInfo "/etc/passwd" .read,
    .networkConnection "e3" 12 c1PInfo "8.8.8.8" 4444 none .tcp ]

/-- An IP parser that always fails (irrelevant in passive mode). -/
def c1NoParse : String → Option Policy.IpAddr := fun _ => none

/-- C1 witness: a concrete passive run over all three handler kinds
returns only Log verdicts and records only Log events. -/
theorem c1_passive_mode_only_logs_witness :
    c1State.passive_mode = true
    ∧ ((∀ v ∈ (Monitor.runCalls c1NoParse c1State c1Calls).2, v = Monitor.Verdict.log)
      ∧ (∀ ev ∈ (Monitor.runCalls c1NoParse c1State c1Calls).1.events,
          ev ∈ c1State.events ∨ ev.verdict = Monitor.Verdict.log)) :=
  ⟨rfl, c1_passive_mode_only_logs c1NoParse c1State c1Calls rfl⟩

namespace Patterns

/-- src/linux_security/process_monitor.rs `ProcessInfo`. -/
structure ProcessInfo where
  pid : Nat
  ppid : Nat
  name : String
  exe_path : Option String
  cmdline : List String
  uid : Nat
  gid : Nat
  start_time : Nat
deriving DecidableEq

/-- src/linux_security/fanotify.rs `FanotifyEvent`. -/
structure FanotifyEvent where
  mask : Nat
  fd : Int
  pid : Int
  path : Option String
deriving DecidableEq

/-- src/linux_security/patterns.rs `ChainEvent`. -/
inductive ChainEvent where
  | processSpawn (child_pid : Nat) (child_name : String)
  | fileAccess (path : String) (access_type : String)
  | networkConnection (remote_ip : String) (remote_port : Nat)
  | privilegeChange (old_uid new_uid : Nat)
deriving DecidableEq

/-- src/linux_security/patterns.rs `ProcessChainNode`. -/
structure ProcessChainNode where
  pid : Nat
  ppid : Nat
  name : String
  exe_path : Option String
  cmdline : List String
  created_at : Nat
  events : List ChainEvent
deriving DecidableEq

/-- src/linux_security/patterns.rs `ProcessChain`. -/
structure ProcessChain where
  root_pid : Nat
  chain : List ProcessChainNode
  created_at : Nat
  suspicious_score : Nat
deriving DecidableEq

/-- The `HashMap<u32, ProcessChain>` of tracked chains. -/
def ChainMap := Nat → Option ProcessChain

/-- `HashMap::insert` on the chain map. -/
def mapInsert (m : ChainMap) (k : Nat) (v : ProcessChain) : ChainMap :=
  fun p => if p = k then some v else m p

/-- The empty chain map. -/
def emptyChainMap : ChainMap := fun _ => none

/-- A placeholder chain used only to read back concrete lookups. -/
def dfltChain : ProcessChain := ⟨0, [], 0, 0⟩

/-- Build a `ProcessChainNode` from a `ProcessInfo` (as the source does
inline). -/
def mkNode (p : ProcessInfo) (now : Nat) (events : List ChainEvent) :
    ProcessChainNode :=
  ⟨p.pid, p.ppid, p.name, p.exe_path, p.cmdline, now, events⟩

/-- `PatternMatcher::track_process_spawn` (`now` models `Instant::now()`;
the final retain models the one-hour chain eviction). -/
def track_process_spawn (m : ChainMap) (parent child : ProcessInfo)
    (now : Nat) : ChainMap :=
  let m' : ChainMap :=
    match m parent.pid with
    | some parent_chain =>
        let child_node := mkNode child now []
        let pc' := { parent_chain with chain := parent_chain.chain ++ [child_node] }
        let child_chain := { pc' with root_pid := pc'.root_pid }
        mapInsert (mapInsert m parent.pid pc') child.pid child_chain
    | none =>
        let parent_node :=
          mkNode parent now [ChainEvent.processSpawn child.pid child.name]
        let child_node := mkNode child now []
        let chain : ProcessChain :=
          ⟨parent.pid, [parent_node, child_node], now, 0⟩
        mapInsert (mapInsert m parent.pid chain) child.pid chain
  fun p => (m' p).filter (fun c => decide (now - 3600 < c.created_at))

/-- The per-event suspicion-score increment applied inside
`PatternMatcher::add_chain_event`. -/
def scoreDelta : ChainEvent → Nat
  | .fileAccess path _ =>
      if strContainsStr (strToLower path) "/etc/passwd" ||
         strContainsStr (strToLower path) "/etc/shadow" then 10 else 0
  | .networkConnection _ remote_port =>
      if [4444, 5555, 6666, 7777, 8888, 9999].contains remote_port then 20 else 0
  | .privilegeChange old_uid new_uid =>
      if old_uid != 0 && new_uid == 0 then 30 else 0
  | .processSpawn _ _ => 0

/-- The loop body of `add_chain_event`: push the event onto the first
node with the given pid (then break) and report the score increment. -/
def addEventToChain (pid : Nat) (e : ChainEvent) :
    List ProcessChainNode → List ProcessChainNode × Nat
  | [] => ([], 0)
  | n :: rest =>
      if n.pid = pid then
        ({ n with events := n.events ++ [e] } :: rest, scoreDelta e)
      else
        let r := addEventToChain pid e rest
        (n :: r.1, r.2)

/-- `PatternMatcher::add_chain_event`. -/
def add_chain_event (m : ChainMap) (pid : Nat) (e : ChainEvent) : ChainMap :=
  match m pid with
  | none => m
  | some c =>
      let r := addEventToChain pid e c.chain
      mapInsert m pid
        { c with chain := r.1, suspicious_score := c.suspicious_score + r.2 }

/-- src/linux_security/patterns.rs `DetectionLogic` (the floating-point
resource thresholds are carried as naturals; they are never compared in
the modelled paths). -/
inductive DetectionLogic where
  | commandLinePattern (keywords : List String)
  | fileAccessPattern (patterns : List String)
  | networkPattern (ports : List Nat) (ips : List String) (domains : List String)
  | processChainPattern (parent_pattern child_pattern : String)
  | resourceUsagePattern (cpu_threshold : Nat) (memory_threshold : Nat)
      (duration : Nat)
  | combined (logics : List DetectionLogic)

/-- `PatternMatcher::check_command_line_pattern` (`rc` abstracts the
compiled-regex cache: a keyword either has a compiled matcher or falls
back to the case-insensitive substring test). -/
def check_command_line_pattern (rc : String → Option (String → Bool))
    (keywords : List String) (process : ProcessInfo) : Bool :=
  let cmdline_str := String.intercalate " " process.cmdline
  let exe_path_str := process.exe_path.getD ""
  keywords.any fun keyword =>
    match rc keyword with
    | some rx => rx cmdline_str || rx process.name || rx exe_path_str
    | none =>
        let kl := strToLower keyword
        strContainsStr (strToLower cmdline_str) kl ||
        strContainsStr (strToLower process.name) kl ||
        strContainsStr (strToLower exe_path_str) kl

/-- `PatternMatcher::check_file_access_pattern` (`ro` abstracts on-the-fly
`Regex::new` matching for wildcard patterns: regex source to text to
result). -/
def check_file_access_pattern (ro : String → String → Bool)
    (paths : List String) (event : FanotifyEvent) : Bool :=
  match event.path with
  | some event_path =>
      let path_str := strToLower event_path
      paths.any fun pat =>
        let pattern_lower := strToLower pat
        if strEndsWith pat "/" then
          strStartsWith path_str pattern_lower
        else if strContainsStr pat "*" then
          ro ("(?i)^" ++ (pat.replace "*" ".*") ++ "$") path_str
        else
          strContainsStr path_str pattern_lower
  | none => false

/-- `PatternMatcher::check_process_chain_pattern`: the event process must
appear at a position after the head of its chain, match the child
pattern, and have the preceding node match the parent pattern. -/
def check_process_chain_pattern (chains : ChainMap)
    (parent_pattern child_pattern : String) (process : ProcessInfo) : Bool :=
  match chains process.pid with
  | none => false
  | some chain =>
      (chain.chain.zip chain.chain.tail).any fun pr =>
        let parent_node := pr.1
        let node := pr.2
        node.pid == process.pid &&
        (strContainsStr (strToLower node.name) (strToLower child_pattern) ||
         strContainsStr (strToLower (String.intercalate " " node.cmdline))
           (strToLower child_pattern)) &&
        (strContainsStr (strToLower parent_node.name) (strToLower parent_pattern) ||
         strContainsStr (strToLower (String.intercalate " " parent_node.cmdline))
           (strToLower parent_pattern))

/-- The inner match of the `Combined` arm of
`PatternMatcher::pattern_matches`: only command-line and file-access
children are evaluated; every other child form yields false. -/
def combinedChildMatches (rc : String → Option (String → Bool))
    (ro : String → String → Bool) (process : ProcessInfo)
    (event : Option FanotifyEvent) : DetectionLogic → Bool
  | .commandLinePattern keywords => check_command_line_pattern rc keywords process
  | .fileAccessPattern paths =>
      match event with
      | some e => check_file_access_pattern ro paths e
      | none => false
  | _ => false

/-- `PatternMatcher::pattern_matches` on a detection logic. -/
def patternMatches (rc : String → Option (String → Bool))
    (ro : String → String → Bool) (chains : ChainMap)
    (logic : DetectionLogic) (process : ProcessInfo)
    (event : Option FanotifyEvent) : Bool :=
  match logic with
  | .commandLinePattern keywords => check_command_line_pattern rc keywords process
  | .fileAccessPattern paths =>
      match event with
      | some e => check_file_access_pattern ro paths e
      | none => false
  | .networkPattern _ _ _ => false
  | .processChainPattern pp cp => check_process_chain_pattern chains pp cp process
  | .resourceUsagePattern _ _ _ => false
  | .combined logics => logics.any (combinedChildMatches rc ro process event)

/-- The operations that build process chains. -/
inductive ChainOp where
  | spawn (parent child : ProcessInfo) (now : Nat)
  | chainEvent (pid : Nat) (e : ChainEvent)

/-- Apply one chain operation. -/
def applyChainOp (m : ChainMap) : ChainOp → ChainMap
  | .spawn parent child now => track_process_spawn m parent child now
  | .chainEvent pid e => add_chain_event m pid e

/-- Run a list of chain operations. -/
def runChainOps (m : ChainMap) (ops : List ChainOp) : ChainMap :=
  ops.foldl applyChainOp m

/-- Side conditions under which a spawn extends chains linearly: the
spawn event names the parent as the child parent, and a parent that
already owns a chain is its last node. -/
def validChainOp (m : ChainMap) : ChainOp → Bool
  | .spawn parent child _ =>
      child.ppid == parent.pid &&
      (match m parent.pid with
       | none => true
       | some c =>
           match c.chain.getLast? with
           | some n => n.pid == parent.pid
           | none => false)
  | .chainEvent _ _ => true

/-- All operations in the list are valid at the state they are applied
to. -/
def validChainOps (m : ChainMap) : List ChainOp → Bool
  | [] => true
  | op :: rest => validChainOp m op && validChainOps (applyChainOp m op) rest

/-- The parent-link relation between adjacent chain nodes. -/
def nodeStep (a b : ProcessChainNode) : Prop := b.ppid = a.pid

/-- Every chain in the map is a staircase: each node after the first
names the previous node as its parent. -/
def ChainWF (m : ChainMap) : Prop :=
  ∀ pid c, m pid = some c → List.Chain' nodeStep c.chain

end Patterns

instance : DecidableRel Patterns.nodeStep :=
  fun a b => inferInstanceAs (Decidable (b.ppid = a.pid))

lemma optFilter_some {α : Type} {p : α → Bool} {o : Option α} {a : α}
    (h : o.filter p = some a) : o = some a := by
  cases o with
  | none => simp [Option.filter] at h
  | some b =>
      by_cases hpb : p b
      · have : b = a := by simpa [Option.filter, hpb] using h
        simp [this]
      · simp [Option.filter, hpb] at h

lemma Patterns.WF_filter (m : Patterns.ChainMap) (pred : Patterns.ProcessChain → Bool)
    (h : Patterns.ChainWF m) :
    Patterns.ChainWF (fun p => (m p).filter pred) :=
  fun pid c hc => h pid c (optFilter_some hc)

lemma Patterns.WF_insert (m : Patterns.ChainMap) (k : Nat) (v : Patterns.ProcessChain)
    (h : Patterns.ChainWF m) (hv : List.Chain' Patterns.nodeStep v.chain) :
    Patterns.ChainWF (Patterns.mapInsert m k v) := by
  intro pid c hc
  unfold Patterns.mapInsert at hc
  by_cases hk : pid = k
  · have : v = c := by simpa [hk] using hc
    exact this ▸ hv
  · exact h pid c (by simpa [hk] using hc)

/-- The pid and ppid of a node, the data the staircase invariant depends
on. -/
def Patterns.nodeKey (n : Patterns.ProcessChainNode) : Nat × Nat := (n.pid, n.ppid)

lemma Patterns.addEventToChain_map_key (pid : Nat) (e : Patterns.ChainEvent)
    (l : List Patterns.ProcessChainNode) :
    ((Patterns.addEventToChain pid e l).1).map Patterns.nodeKey
      = l.map Patterns.nodeKey := by
  induction l with
  | nil => rfl
  | cons n rest ih =>
      by_cases hn : n.pid = pid <;>
        simp [Patterns.addEventToChain, hn, ih, Patterns.nodeKey]

lemma Patterns.chain'_of_map_key {l l' : List Patterns.ProcessChainNode}
    (hmap : l'.map Patterns.nodeKey = l.map Patterns.nodeKey)
    (h : List.Chain' Patterns.nodeStep l) :
    List.Chain' Patterns.nodeStep l' := by
  have h1 : List.Chain' (fun p q : Nat × Nat => q.2 = p.1) (l.map Patterns.nodeKey) :=
    (List.chain'_map Patterns.nodeKey).mpr h
  rw [← hmap] at h1
  exact (List.chain'_map Patterns.nodeKey).mp h1

lemma Patterns.spawn_preserves_WF (m : Patterns.ChainMap)
    (parent child : Patterns.ProcessInfo) (now : Nat)
    (hv : Patterns.validChainOp m (.spawn parent child now) = true)
    (hw : Patterns.ChainWF m) :
    Patterns.ChainWF (Patterns.track_process_spawn m parent child now) := by
  unfold Patterns.track_process_spawn
  apply Patterns.WF_filter
  unfold Patterns.validChainOp at hv
  rw [Bool.and_eq_true] at hv
  obtain ⟨hppid, hrest⟩ := hv
  rw [beq_iff_eq] at hppid
  cases hm : m parent.pid with
  | some pc =>
      simp only [hm] at hrest ⊢
      cases hl : pc.chain.getLast? with
      | none =>
          simp only [hl] at hrest
          exact absurd hrest (by decide)
      | some n =>
          simp only [hl, beq_iff_eq] at hrest
          have hchain :
              List.Chain' Patterns.nodeStep
                (pc.chain ++ [Patterns.mkNode child now []]) := by
            rw [List.chain'_append]
            refine ⟨hw parent.pid pc hm, List.chain'_singleton _, ?_⟩
            intro x hx y hy
            have hx' : x = n := by rw [hl] at hx; exact (by simpa using hx : n = x).symm
            have hy' : y = Patterns.mkNode child now [] :=
              (by simpa using hy : Patterns.mkNode child now [] = y).symm
            show y.ppid = x.pid
            rw [hx', hy']
            show child.ppid = n.pid
            rw [hppid, hrest]
          exact Patterns.WF_insert _ _ _
            (Patterns.WF_insert _ _ _ hw hchain) hchain
  | none =>
      simp only [hm]
      have hchain :
          List.Chain' Patterns.nodeStep
            [Patterns.mkNode parent now [Patterns.ChainEvent.processSpawn child.pid child.name],
             Patterns.mkNode child now []] := by
        rw [List.chain'_cons]
        exact ⟨hppid, List.chain'_singleton _⟩
      exact Patterns.WF_insert _ _ _
        (Patterns.WF_insert _ _ _ hw hchain) hchain

lemma Patterns.event_preserves_WF (m : Patterns.ChainMap) (pid : Nat)
    (e : Patterns.ChainEvent) (hw : Patterns.ChainWF m) :
    Patterns.ChainWF (Patterns.add_chain_event m pid e) := by
  unfold Patterns.add_chain_event
  cases hm : m pid with
  | none => exact hw
  | some c =>
      simp only [hm]
      exact Patterns.WF_insert _ _ _ hw
        (Patterns.chain'_of_map_key
          (Patterns.addEventToChain_map_key pid e c.chain) (hw pid c hm))

lemma Patterns.runChainOps_WF (ops : List Patterns.ChainOp) :
    ∀ m : Patterns.ChainMap, Patterns.validChainOps m ops = true →
      Patterns.ChainWF m → Patterns.ChainWF (Patterns.runChainOps m ops) := by
  induction ops with
  | nil => intro m _ hw; exact hw
  | cons op rest ih =>
      intro m hval hw
      rw [show Patterns.validChainOps m (op :: rest)
            = (Patterns.validChainOp m op
                && Patterns.validChainOps (Patterns.applyChainOp m op) rest) from rfl,
          Bool.and_eq_true] at hval
      obtain ⟨h1, h2⟩ := hval
      have hw' : Patterns.ChainWF (Patterns.applyChainOp m op) := by
        cases op with
        | spawn parent child now => exact Patterns.spawn_preserves_WF m parent child now h1 hw
        | chainEvent pid e => exact Patterns.event_preserves_WF m pid e hw
      exact ih (Patterns.applyChainOp m op) h2 hw'

/-- Concrete processes used by the chain-tracking scenarios. -/
def cP1 : Patterns.ProcessInfo := ⟨1, 0, "bash", some "/bin/bash", ["bash"], 0, 0, 0⟩

/-- Child process of pid 1. -/
def cP2 : Patterns.ProcessInfo := ⟨2, 1, "sh", some "/bin/sh", ["sh"], 0, 0, 0⟩

/-- A second child process of pid 1. -/
def cP3 : Patterns.ProcessInfo := ⟨3, 1, "nc", some "/bin/nc", ["nc"], 0, 0, 0⟩

/-- Two spawns from the same parent. -/
def c4BadOps : List Patterns.ChainOp :=
  [.spawn cP1 cP2 100000, .spawn cP1 cP3 100000]

/-- C4 counterexample: after pid 1 spawns pid 2 and then pid 3 (each with
the correct parent identifier), the chain under pid 1 is
[(1,0),(2,1),(3,1)]: the node at position 2 has ppid 1, not the pid 2 of
the node at position 1, so the staircase invariant fails. -/
theorem c4_chain_ppid_counterexample :
    ((Patterns.runChainOps Patterns.emptyChainMap c4BadOps 1).getD
        Patterns.dfltChain).chain.map Patterns.nodeKey = [(1, 0), (2, 1), (3, 1)]
    ∧ ¬ List.Chain' Patterns.nodeStep
        ((Patterns.runChainOps Patterns.emptyChainMap c4BadOps 1).getD
          Patterns.dfltChain).chain := by
  refine ⟨by decide, ?_⟩
  intro hch
  have h1 : List.Chain' (fun p q : Nat × Nat => q.2 = p.1)
      ((((Patterns.runChainOps Patterns.emptyChainMap c4BadOps 1).getD
        Patterns.dfltChain).chain).map Patterns.nodeKey) :=
    (List.chain'_map Patterns.nodeKey).mpr hch
  have hmap : (((Patterns.runChainOps Patterns.emptyChainMap c4BadOps 1).getD
      Patterns.dfltChain).chain).map Patterns.nodeKey = [(1, 0), (2, 1), (3, 1)] := by
    decide
  rw [hmap, List.chain'_cons, List.chain'_cons] at h1
  exact absurd h1.2.1 (by decide)

/-- C4 amended: the staircase invariant (each node after the first names
the previous node as its parent) holds for every chain reachable from the
empty tracker by spawn and chain-event operations, provided each spawn
names the parent as the child parent and spawns from the last node of an
existing chain (linear descent); a parent spawning a second child breaks
it. -/
theorem c4_chain_ppid_amended (ops : List Patterns.ChainOp)
    (h : Patterns.validChainOps Patterns.emptyChainMap ops = true) :
    ∀ pid c, Patterns.runChainOps Patterns.emptyChainMap ops pid = some c →
      List.Chain' Patterns.nodeStep c.chain :=
  Patterns.runChainOps_WF ops Patterns.emptyChainMap h
    (fun _ c hc => by simp [Patterns.emptyChainMap] at hc)

/-- A linear spawn chain with a chain event. -/
def c4GoodOps : List Patterns.ChainOp :=
  [.spawn cP1 cP2 100000,
   .chainEvent 2 (.networkConnection "10.0.0.5" 4444),
   .spawn cP2 ⟨4, 2, "nc", some "/bin/nc", ["nc"], 0, 0, 0⟩ 100000]

/-- C4 amended witness: a concrete linear run satisfies the side
conditions and yields a staircase chain under pid 2. -/
theorem c4_chain_ppid_amended_witness :
    Patterns.validChainOps Patterns.emptyChainMap c4GoodOps = true
    ∧ List.Chain' Patterns.nodeStep
        ((Patterns.runChainOps Patterns.emptyChainMap c4GoodOps 2).getD
          Patterns.dfltChain).chain :=
  ⟨by decide,
   c4_chain_ppid_amended c4GoodOps (by decide) 2
     ((Patterns.runChainOps Patterns.emptyChainMap c4GoodOps 2).getD
       Patterns.dfltChain) (by decide)⟩

/-- C5 counterexample: after spawn(pid 1, pid 2), adding a chain event
through pid 2 raises the suspicion score of the chain looked up under
pid 2 to 10, while the chain looked up under pid 1 still scores 0 — the
two map entries are not the same chain object. -/
theorem c5_shared_chain_counterexample :
    ((Patterns.add_chain_event
        (Patterns.track_process_spawn Patterns.emptyChainMap cP1 cP2 100000)
        2 (.fileAccess "/etc/passwd" "read")) 2).map
        Patterns.ProcessChain.suspicious_score = some 10
    ∧ ((Patterns.add_chain_event
        (Patterns.track_process_spawn Patterns.emptyChainMap cP1 cP2 100000)
        2 (.fileAccess "/etc/passwd" "read")) 1).map
        Patterns.ProcessChain.suspicious_score = some 0 := by
  refine ⟨by decide, by decide⟩

/-- C5 amended: right after the spawn the parent and child map entries
hold equal snapshot clones, but they are independent — a subsequent
add_chain_event through one pid rewrites only that pid entry and is not
observed through any other pid. -/
theorem c5_clone_independence_amended (m : Patterns.ChainMap)
    (parent child : Patterns.ProcessInfo) (now : Nat) (pid q : Nat)
    (e : Patterns.ChainEvent) (h : q ≠ pid) :
    Patterns.track_process_spawn m parent child now parent.pid
      = Patterns.track_process_spawn m parent child now child.pid
    ∧ Patterns.add_chain_event (Patterns.track_process_spawn m parent child now) pid e q
      = Patterns.track_process_spawn m parent child now q := by
  constructor
  · unfold Patterns.track_process_spawn
    cases hm : m parent.pid with
    | some pc =>
        by_cases hpc : parent.pid = child.pid <;>
          simp [hm, Patterns.mapInsert, hpc]
    | none =>
        by_cases hpc : parent.pid = child.pid <;>
          simp [hm, Patterns.mapInsert, hpc]
  · unfold Patterns.add_chain_event
    cases hm : Patterns.track_process_spawn m parent child now pid with
    | none => rfl
    | some c => simp [hm, Patterns.mapInsert, h]

/-- C5 amended witness: at the concrete spawn of pid 2 from pid 1, both
entries agree right after the spawn, and an event added through pid 2
leaves the entry under pid 1 unchanged. -/
theorem c5_clone_independence_amended_witness :
    Patterns.track_process_spawn Patterns.emptyChainMap cP1 cP2 100000 cP1.pid
      = Patterns.track_process_spawn Patterns.emptyChainMap cP1 cP2 100000 cP2.pid
    ∧ Patterns.add_chain_event
        (Patterns.track_process_spawn Patterns.emptyChainMap cP1 cP2 100000)
        2 (.fileAccess "/etc/passwd" "read") 1
      = Patterns.track_process_spawn Patterns.emptyChainMap cP1 cP2 100000 1 :=
  c5_clone_independence_amended Patterns.emptyChainMap
    cP1 cP2 100000 2 1 (.fileAccess "/etc/passwd" "read") (by decide)

/-- The chain value written back by `add_chain_event` at a tracked pid. -/
def Patterns.updatedChain (c : Patterns.ProcessChain) (pid : Nat)
    (e : Patterns.ChainEvent) : Patterns.ProcessChain :=
  { c with
    chain := (Patterns.addEventToChain pid e c.chain).1
    suspicious_score :=
      c.suspicious_score + (Patterns.addEventToChain pid e c.chain).2 }

lemma Patterns.addEventToChain_delta (pid : Nat) (e : Patterns.ChainEvent)
    (l : List Patterns.ProcessChainNode)
    (h : l.any (fun n => n.pid == pid) = true) :
    (Patterns.addEventToChain pid e l).2 = Patterns.scoreDelta e := by
  induction l with
  | nil => simp at h
  | cons n rest ih =>
      by_cases hn : n.pid = pid
      · simp [Patterns.addEventToChain, hn]
      · have h' : rest.any (fun n => n.pid == pid) = true := by
          simp only [List.any_cons, Bool.or_eq_true, beq_iff_eq] at h
          rcases h with h | h
          · exact absurd h hn
          · simpa using h
        simp [Patterns.addEventToChain, hn, ih h']

/-- Modelled from the claim wording: a path is under a base path when it
equals the base or extends it below a component boundary. -/
def specUnderPath (path base : String) : Bool :=
  path == base || strStartsWith path (base ++ "/")

/-- C6 counterexample: the path /tmp/etc/passwd is under neither
/etc/passwd nor /etc/shadow, yet adding a file access to it raises the
suspicion score by 10, because the source tests substring containment,
not path containment. -/
theorem c6_score_substring_counterexample :
    specUnderPath "/tmp/etc/passwd" "/etc/passwd" = false
    ∧ specUnderPath "/tmp/etc/passwd" "/etc/shadow" = false
    ∧ ((Patterns.add_chain_event
          (Patterns.track_process_spawn Patterns.emptyChainMap cP1 cP2 100000)
          2 (.fileAccess "/tmp/etc/passwd" "read")) 2).map
          Patterns.ProcessChain.suspicious_score = some 10 := by
  refine ⟨by decide, by decide, by decide⟩

/-- C6 amended: for a tracked pid whose chain holds a node for it,
add_chain_event adds exactly 10 when the lowercased file-access path
contains the substring /etc/passwd or /etc/shadow, exactly 20 for a
network connection to a port in 4444/5555/6666/7777/8888/9999, exactly 30
for an effective-uid change from nonzero to 0, and 0 for every other
chain event. -/
theorem c6_score_delta_amended (m : Patterns.ChainMap) (pid : Nat)
    (e : Patterns.ChainEvent) (c : Patterns.ProcessChain)
    (h1 : m pid = some c) (h2 : c.chain.any (fun n => n.pid == pid) = true) :
    ∃ c', Patterns.add_chain_event m pid e pid = some c'
      ∧ c'.suspicious_score = c.suspicious_score +
          (match e with
           | .fileAccess path _ =>
               if strContainsStr (strToLower path) "/etc/passwd" ||
                  strContainsStr (strToLower path) "/etc/shadow" then 10 else 0
           | .networkConnection _ remote_port =>
               if [4444, 5555, 6666, 7777, 8888, 9999].contains remote_port
               then 20 else 0
           | .privilegeChange old_uid new_uid =>
               if old_uid != 0 && new_uid == 0 then 30 else 0
           | .processSpawn _ _ => 0) := by
  have hd := Patterns.addEventToChain_delta pid e c.chain h2
  refine ⟨Patterns.updatedChain c pid e, ?_, ?_⟩
  · unfold Patterns.add_chain_event
    simp only [h1]
    simp [Patterns.mapInsert, Patterns.updatedChain]
  · show c.suspicious_score + (Patterns.addEventToChain pid e c.chain).2 = _
    simp only [hd]
    cases e <;> rfl

/-- A chain holding one node for pid 7, with score 5. -/
def c6Chain : Patterns.ProcessChain := ⟨7, [⟨7, 1, "sh", none, [], 0, []⟩], 0, 5⟩

/-- A map tracking pid 7. -/
def c6Map : Patterns.ChainMap := Patterns.mapInsert Patterns.emptyChainMap 7 c6Chain

/-- C6 amended witness: a concrete uid 1000 to 0 transition adds exactly
30 to the score of the tracked chain. -/
theorem c6_score_delta_amended_witness :
    c6Map 7 = some c6Chain
    ∧ c6Chain.chain.any (fun n => n.pid == 7) = true
    ∧ ∃ c', Patterns.add_chain_event c6Map 7 (.privilegeChange 1000 0) 7 = some c'
        ∧ c'.suspicious_score = c6Chain.suspicious_score +
            (match Patterns.ChainEvent.privilegeChange 1000 0 with
             | .fileAccess path _ =>
                 if strContainsStr (strToLower path) "/etc/passwd" ||
                    strContainsStr (strToLower path) "/etc/shadow" then 10 else 0
             | .networkConnection _ remote_port =>
                 if [4444, 5555, 6666, 7777, 8888, 9999].contains remote_port
                 then 20 else 0
             | .privilegeChange old_uid new_uid =>
                 if old_uid != 0 && new_uid == 0 then 30 else 0
             | .processSpawn _ _ => 0) :=
  ⟨rfl, by decide,
   c6_score_delta_amended c6Map 7 (.privilegeChange 1000 0) c6Chain rfl (by decide)⟩

/-- A regex cache with no compiled entries (every keyword falls back to
the substring test). -/
def rcNone : String → Option (String → Bool) := fun _ => none

/-- A wildcard-regex oracle that never matches (irrelevant to the C9
scenario). -/
def roFalse : String → String → Bool := fun _ _ => false

/-- A process whose name is the single letter x. -/
def c9Proc : Patterns.ProcessInfo := ⟨42, 1, "x", none, [], 0, 0, 0⟩

/-- A Combined logic with one command-line child that matches c9Proc. -/
def c9Child : Patterns.DetectionLogic := .combined [.commandLinePattern ["x"]]

/-- C9 counterexample: the child logic matches on its own, but a Combined
node holding it does not match, because the Combined arm evaluates only
command-line and file-access children and maps every other form
(including nested Combined) to false. -/
theorem c9_combined_or_counterexample :
    Patterns.patternMatches rcNone roFalse Patterns.emptyChainMap c9Child
      c9Proc none = true
    ∧ Patterns.patternMatches rcNone roFalse Patterns.emptyChainMap
      (.combined [c9Child]) c9Proc none = false := by
  refine ⟨by decide, by decide⟩

/-- C9 amended: matching a Combined node equals the OR over its children
restricted to command-line and file-access children evaluated on their
own; children of any other form (network, process-chain, resource, or
nested Combined) contribute false even when they would match on their
own. -/
theorem c9_combined_amended (rc : String → Option (String → Bool))
    (ro : String → String → Bool) (chains : Patterns.ChainMap)
    (logics : List Patterns.DetectionLogic) (process : Patterns.ProcessInfo)
    (event : Option Patterns.FanotifyEvent) :
    Patterns.patternMatches rc ro chains (.combined logics) process event
      = logics.any (fun l =>
          match l with
          | .commandLinePattern _ => Patterns.patternMatches rc ro chains l process event
          | .fileAccessPattern _ => Patterns.patternMatches rc ro chains l process event
          | _ => false) := by
  induction logics with
  | nil => rfl
  | cons hd t ih =>
      have hh : Patterns.combinedChildMatches rc ro process event hd
          = (match hd with
             | .commandLinePattern _ =>
                 Patterns.patternMatches rc ro chains hd process event
             | .fileAccessPattern _ =>
                 Patterns.patternMatches rc ro chains hd process event
             | _ => false) := by
        cases hd <;> rfl
      show (hd :: t).any (Patterns.combinedChildMatches rc ro process event) = _
      rw [List.any_cons, List.any_cons, hh]
      congr 1

namespace EventCorrelation

/-- src/linux_security/event_correlation.rs `Severity`. -/
inductive Severity where
  | low
  | medium
  | high
  | critical
deriving DecidableEq

/-- src/linux_security/event_correlation.rs `NetworkPattern` (a field of
`EventMatcher`; never consulted by `event_matches`). -/
structure NetworkPattern where
  port : Option Nat
  ip_pattern : Option String
  protocol : Option String
deriving DecidableEq

/-- src/linux_security/event_correlation.rs `EventTypePattern`. -/
inductive EventTypePattern where
  | fileExecution
  | fileAccess
  | networkConnection
  | processSpawn
  | privilegeEscalation
  | any
deriving DecidableEq

/-- src/linux_security/event_correlation.rs `EventMatcher`. -/
structure EventMatcher where
  event_type : EventTypePattern
  process_name : Option String
  path_pattern : Option String
  network_pattern : Option NetworkPattern
deriving DecidableEq

/-- src/linux_security/event_correlation.rs `FileAccessType`. -/
inductive FileAccessType where
  | read
  | write
  | execute
deriving DecidableEq

/-- src/linux_security/event_correlation.rs `KillChainStage`. -/
structure KillChainStage where
  name : String
  events : List EventMatcher
  time_limit : Nat
deriving DecidableEq

/-- src/linux_security/event_correlation.rs `CorrelationPattern`. -/
inductive CorrelationPattern where
  | processSequence (events : List EventMatcher) (max_time_between : Nat)
  | eventCluster (event_type : EventMatcher) (min_count : Nat)
      (unique_sources : Bool)
  | processTreePattern (root_event : EventMatcher)
      (child_events : List EventMatcher)
  | networkSweep (min_targets : Nat) (port_range : Option (Nat × Nat))
  | massFileAccess (path_pattern : String) (min_files : Nat)
      (access_types : List FileAccessType)
  | killChain (stages : List KillChainStage)
deriving DecidableEq

/-- src/linux_security/event_correlation.rs `CorrelationRule`. -/
structure CorrelationRule where
  id : String
  name : String
  description : String
  pattern : CorrelationPattern
  time_window : Nat
  severity : Severity
  enabled : Bool
deriving DecidableEq

/-- src/linux_security/event_correlation.rs `ActiveCorrelation`. -/
structure ActiveCorrelation where
  rule_id : String
  matched_events : List Monitor.SecurityEvent
  started_at : Nat
  stage : Nat
deriving DecidableEq

/-- src/linux_security/event_correlation.rs `CorrelatedEvent`. -/
structure CorrelatedEvent where
  id : String
  rule : CorrelationRule
  events : List Monitor.SecurityEvent
  detected_at : Nat
  severity : Severity
  description : String
deriving DecidableEq

/-- The `HashMap<String, ActiveCorrelation>` of active correlations. -/
def CorrMap := String → Option ActiveCorrelation

/-- The empty correlation table. -/
def emptyCorrMap : CorrMap := fun _ => none

/-- `HashMap::insert` on the correlation table. -/
def corrInsert (m : CorrMap) (k : String) (v : ActiveCorrelation) : CorrMap :=
  fun p => if p = k then some v else m p

/-- `HashMap::remove` on the correlation table. -/
def corrErase (m : CorrMap) (k : String) : CorrMap :=
  fun p => if p = k then none else m p

/-- `EventCorrelator::event_matches`: event-type check, then optional
process-name containment, then optional path-pattern containment (the
network-pattern field of the matcher is never consulted, as in the
source). -/
def event_matches (event : Monitor.SecurityEvent) (matcher : EventMatcher) :
    Bool :=
  let type_matches :=
    match matcher.event_type, event.event_type with
    | .fileExecution, .fileExecution _ _ _ => true
    | .fileAccess, .fileAccess _ _ => true
    | .networkConnection, .networkConnection _ _ _ _ => true
    | .any, _ => true
    | _, _ => false
  if !type_matches then false
  else if (match matcher.process_name with
           | some expected_name =>
               !(strContainsStr (pathFileName event.process_info.path) expected_name)
           | none => false) then false
  else if (match matcher.path_pattern with
           | some path_pattern =>
               !(match event.event_type with
                 | .fileExecution target_path _ _ =>
                     strContainsStr target_path path_pattern
                 | .fileAccess target_path _ =>
                     strContainsStr target_path path_pattern
                 | _ => false)
           | none => false) then false
  else true

/-- `EventCorrelator::check_process_sequence`: advance or start the
per-(rule, pid) cursor; emit a correlated event when the matcher list is
exhausted (`now` models `Instant::now()`, `freshId` the fresh UUID). The
`max_time_between` argument is carried exactly as in the source, which
never reads it. -/
def check_process_sequence (correlations : CorrMap) (rule : CorrelationRule)
    (event : Monitor.SecurityEvent) (expected_events : List EventMatcher)
    (_max_time_between : Nat) (now : Nat) (freshId : String) :
    CorrMap × Option CorrelatedEvent :=
  let correlation_key := rule.id ++ ":" ++ toString event.process_info.pid
  match correlations correlation_key with
  | some active =>
      if h : active.stage < expected_events.length then
        if event_matches event (expected_events.get ⟨active.stage, h⟩) then
          let active' : ActiveCorrelation :=
            { active with
              matched_events := active.matched_events ++ [event]
              stage := active.stage + 1 }
          if expected_events.length ≤ active'.stage then
            (corrErase correlations correlation_key,
             some ⟨freshId, rule, active'.matched_events, now, rule.severity,
                   "Process sequence detected: " ++ rule.name⟩)
          else
            (corrInsert correlations correlation_key active', none)
        else (correlations, none)
      else (correlations, none)
  | none =>
      if h : 0 < expected_events.length then
        if event_matches event (expected_events.get ⟨0, h⟩) then
          (corrInsert correlations correlation_key ⟨rule.id, [event], now, 1⟩,
           none)
        else (correlations, none)
      else (correlations, none)

/-- src/linux_security/event_correlation.rs `EventBuffer`. -/
structure EventBuffer where
  events : List (Nat × Monitor.SecurityEvent)
  max_age : Nat
  max_size : Nat

/-- `EventBuffer::add_event`: pop old entries from the front while their
timestamp is before the cutoff, push the new entry at the back, then pop
from the front while the length exceeds the bound. -/
def EventBuffer.add_event (b : EventBuffer) (timestamp : Nat)
    (event : Monitor.SecurityEvent) : EventBuffer :=
  let cutoff := timestamp - b.max_age
  let pruned := b.events.dropWhile (fun p => decide (p.1 < cutoff))
  let appended := pruned ++ [(timestamp, event)]
  { b with events := appended.drop (appended.length - b.max_size) }

/-- A fresh buffer with the given bounds. -/
def emptyEventBuffer (max_age max_size : Nat) : EventBuffer :=
  ⟨[], max_age, max_size⟩

/-- Run a sequence of insertions. -/
def runInserts (b : EventBuffer) (l : List (Nat × Monitor.SecurityEvent)) :
    EventBuffer :=
  l.foldl (fun bb p => bb.add_event p.1 p.2) b

/-- The timestamps of successive insertions never decrease (the model of
the monotonicity of `Instant::now()`). -/
def nondecreasing : List Nat → Bool
  | [] => true
  | [_] => true
  | a :: b :: rest => decide (a ≤ b) && nondecreasing (b :: rest)

/-- Timestamp order on buffer entries. -/
def tsLe (p q : Nat × Monitor.SecurityEvent) : Prop := p.1 ≤ q.1

end EventCorrelation

lemma EventCorrelation.nondecreasing_iff_chain' (l : List Nat) :
    EventCorrelation.nondecreasing l = true ↔ List.Chain' (· ≤ ·) l := by
  induction l with
  | nil => simp [EventCorrelation.nondecreasing]
  | cons a t ih =>
      cases t with
      | nil => simp [EventCorrelation.nondecreasing]
      | cons b r =>
          rw [show EventCorrelation.nondecreasing (a :: b :: r)
                = (decide (a ≤ b) && EventCorrelation.nondecreasing (b :: r))
              from rfl,
            Bool.and_eq_true, List.chain'_cons, ih, decide_eq_true_iff]

lemma EventCorrelation.dropWhile_lt_bound
    (l : List (Nat × Monitor.SecurityEvent)) (c : Nat)
    (hs : List.Pairwise EventCorrelation.tsLe l) :
    ∀ p ∈ l.dropWhile (fun q => decide (q.1 < c)), c ≤ p.1 := by
  induction l with
  | nil => intro p hp; simp at hp
  | cons a t ih =>
      intro p hp
      rw [List.pairwise_cons] at hs
      by_cases ha : a.1 < c
      · rw [List.dropWhile_cons, if_pos (by simpa using ha)] at hp
        exact ih hs.2 p hp
      · rw [List.dropWhile_cons, if_neg (by simpa using ha)] at hp
        rcases List.mem_cons.mp hp with rfl | hp'
        · exact Nat.le_of_not_lt ha
        · exact le_trans (Nat.le_of_not_lt ha) (hs.1 p hp')

lemma EventCorrelation.add_event_inv (b : EventCorrelation.EventBuffer)
    (ts : Nat) (e : Monitor.SecurityEvent)
    (hs : List.Pairwise EventCorrelation.tsLe b.events) :
    (b.add_event ts e).events.length ≤ b.max_size
    ∧ ∀ p ∈ (b.add_event ts e).events, ts - b.max_age ≤ p.1 := by
  unfold EventCorrelation.EventBuffer.add_event
  constructor
  · rw [List.length_drop]
    omega
  · intro p hp
    have hp' := List.mem_of_mem_drop hp
    rcases List.mem_append.mp hp' with hp'' | hp''
    · exact EventCorrelation.dropWhile_lt_bound b.events (ts - b.max_age) hs p hp''
    · have : p = (ts, e) := by simpa using hp''
      rw [this]
      exact Nat.sub_le _ _

lemma EventCorrelation.add_event_sorted (b : EventCorrelation.EventBuffer)
    (ts : Nat) (e : Monitor.SecurityEvent)
    (hs : List.Pairwise EventCorrelation.tsLe b.events)
    (hb : ∀ p ∈ b.events, p.1 ≤ ts) :
    List.Pairwise EventCorrelation.tsLe (b.add_event ts e).events
    ∧ ∀ p ∈ (b.add_event ts e).events, p.1 ≤ ts := by
  unfold EventCorrelation.EventBuffer.add_event
  have hsub :
      (b.events.dropWhile (fun p => decide (p.1 < ts - b.max_age))).Sublist
        b.events :=
    List.dropWhile_sublist _
  have happ :
      List.Pairwise EventCorrelation.tsLe
        (b.events.dropWhile (fun p => decide (p.1 < ts - b.max_age))
          ++ [(ts, e)]) := by
    rw [List.pairwise_append]
    refine ⟨List.Pairwise.sublist hsub hs, List.pairwise_singleton _ _, ?_⟩
    intro x hx y hy
    have hy' : y = (ts, e) := by simpa using hy
    rw [hy']
    exact hb x (hsub.subset hx)
  constructor
  · exact List.Pairwise.sublist (List.drop_sublist _ _) happ
  · intro p hp
    have hp' := List.mem_of_mem_drop hp
    rcases List.mem_append.mp hp' with hp'' | hp''
    · exact hb p (hsub.subset hp'')
    · have : p = (ts, e) := by simpa using hp''
      rw [this]

lemma EventCorrelation.add_event_max (b : EventCorrelation.EventBuffer)
    (ts : Nat) (e : Monitor.SecurityEvent) :
    (b.add_event ts e).max_age = b.max_age
    ∧ (b.add_event ts e).max_size = b.max_size :=
  ⟨rfl, rfl⟩

lemma EventCorrelation.runInserts_sorted
    (l : List (Nat × Monitor.SecurityEvent)) :
    ∀ b : EventCorrelation.EventBuffer,
      List.Pairwise EventCorrelation.tsLe b.events →
      (∀ p ∈ b.events, ∀ q ∈ l, p.1 ≤ q.1) →
      List.Pairwise (· ≤ ·) (l.map Prod.fst) →
      List.Pairwise EventCorrelation.tsLe
        (EventCorrelation.runInserts b l).events := by
  induction l with
  | nil => intro b hs _ _; exact hs
  | cons x r ih =>
      intro b hs hb hl
      rw [List.map_cons, List.pairwise_cons] at hl
      have hbx : ∀ p ∈ b.events, p.1 ≤ x.1 := fun p hp => hb p hp x (by simp)
      obtain ⟨hs', hb'⟩ := EventCorrelation.add_event_sorted b x.1 x.2 hs hbx
      refine ih (b.add_event x.1 x.2) hs' ?_ hl.2
      intro p hp q hq
      exact le_trans (hb' p hp) (hl.1 q.1 (List.mem_map_of_mem _ hq))

lemma EventCorrelation.runInserts_max
    (l : List (Nat × Monitor.SecurityEvent)) :
    ∀ b : EventCorrelation.EventBuffer,
      (EventCorrelation.runInserts b l).max_age = b.max_age
      ∧ (EventCorrelation.runInserts b l).max_size = b.max_size := by
  induction l with
  | nil => intro b; exact ⟨rfl, rfl⟩
  | cons x r ih => intro b; exact ih (b.add_event x.1 x.2)

/-- C8: for every monotone insertion history, after every insertion the
correlation buffer holds at most max_size entries and no retained entry
is older than max_age relative to the inserted timestamp (the insertion
under scrutiny is the last of an arbitrary nondecreasing history,
covering every reachable prior buffer state). -/
theorem c8_buffer_invariant (max_age max_size : Nat)
    (pre : List (Nat × Monitor.SecurityEvent)) (ts : Nat)
    (e : Monitor.SecurityEvent)
    (h : EventCorrelation.nondecreasing
          ((pre ++ [(ts, e)]).map Prod.fst) = true) :
    (EventCorrelation.runInserts
        (EventCorrelation.emptyEventBuffer max_age max_size)
        (pre ++ [(ts, e)])).events.length ≤ max_size
    ∧ ∀ p ∈ (EventCorrelation.runInserts
        (EventCorrelation.emptyEventBuffer max_age max_size)
        (pre ++ [(ts, e)])).events, ts - max_age ≤ p.1 := by
  set b0 := EventCorrelation.emptyEventBuffer max_age max_size with hb0
  have hpw : List.Pairwise (· ≤ ·) ((pre ++ [(ts, e)]).map Prod.fst) :=
    List.chain'_iff_pairwise.mp
      ((EventCorrelation.nondecreasing_iff_chain' _).mp h)
  have hpre : List.Pairwise (· ≤ ·) (pre.map Prod.fst) := by
    rw [List.map_append, List.pairwise_append] at hpw
    exact hpw.1
  have hsorted :
      List.Pairwise EventCorrelation.tsLe
        (EventCorrelation.runInserts b0 pre).events := by
    refine EventCorrelation.runInserts_sorted pre b0 ?_ ?_ hpre
    · exact List.Pairwise.nil
    · intro p hp
      exact absurd hp (by simp [hb0, EventCorrelation.emptyEventBuffer])
  have hstep :
      EventCorrelation.runInserts b0 (pre ++ [(ts, e)])
        = (EventCorrelation.runInserts b0 pre).add_event ts e := by
    unfold EventCorrelation.runInserts
    rw [List.foldl_append]
    rfl
  rw [hstep]
  have hinv :=
    EventCorrelation.add_event_inv (EventCorrelation.runInserts b0 pre) ts e
      hsorted
  obtain ⟨hma, hms⟩ := EventCorrelation.runInserts_max pre b0
  rw [hma, hms] at hinv
  exact hinv

/-- A singleton insertion history for the C8 witness. -/
def c8Pre : List (Nat × Monitor.SecurityEvent) :=
  [(50, ⟨"b1", 50, .fileAccess "/home/a" .read, c1PInfo, .log, ""⟩)]

/-- The event inserted last in the C8 witness. -/
def c8Last : Monitor.SecurityEvent :=
  ⟨"b2", 700, .fileAccess "/home/b" .write, c1PInfo, .log, ""⟩

/-- C8 witness: inserting at time 700 after a time-50 entry with
max_age 600 and max_size 1 satisfies the invariant (the old entry is in
fact evicted on both grounds). -/
theorem c8_buffer_invariant_witness :
    EventCorrelation.nondecreasing
        ((c8Pre ++ [(700, c8Last)]).map Prod.fst) = true
    ∧ ((EventCorrelation.runInserts
        (EventCorrelation.emptyEventBuffer 600 1)
        (c8Pre ++ [(700, c8Last)])).events.length ≤ 1
      ∧ ∀ p ∈ (EventCorrelation.runInserts
          (EventCorrelation.emptyEventBuffer 600 1)
          (c8Pre ++ [(700, c8Last)])).events, 700 - 600 ≤ p.1) :=
  ⟨by decide, c8_buffer_invariant 600 1 c8Pre 700 c8Last (by decide)⟩

/-- A matcher that matches every event. -/
def c7Matcher : EventCorrelation.EventMatcher := ⟨.any, none, none, none⟩

/-- A two-stage ProcessSequence rule with max_time_between of five
seconds. -/
def c7Rule : EventCorrelation.CorrelationRule :=
  ⟨"proc_seq_demo", "Demo sequence", "",
   .processSequence [c7Matcher, c7Matcher] 5, 60, .high, true⟩

/-- First event of the sequence, at time 0. -/
def c7E1 : Monitor.SecurityEvent :=
  ⟨"e1", 0, .fileAccess "/proc/1/mem" .read, c1PInfo, .log, ""⟩

/-- Second event of the sequence, one million seconds later. -/
def c7E2 : Monitor.SecurityEvent :=
  ⟨"e2", 1000000, .fileAccess "/tmp/x" .write, c1PInfo, .log, ""⟩

/-- State after the first event is fed to the sequence checker. -/
def c7Step1 : EventCorrelation.CorrMap × Option EventCorrelation.CorrelatedEvent :=
  EventCorrelation.check_process_sequence EventCorrelation.emptyCorrMap c7Rule
    c7E1 [c7Matcher, c7Matcher] 5 0 "id1"

/-- State after the second event arrives 1000000 seconds later. -/
def c7Step2 : EventCorrelation.CorrMap × Option EventCorrelation.CorrelatedEvent :=
  EventCorrelation.check_process_sequence c7Step1.1 c7Rule c7E2
    [c7Matcher, c7Matcher] 5 1000000 "id2"

/-- C7: check_process_sequence never reads max_time_between, so a
sequence completes and emits a correlated event even when the second
matched event arrives 1000000 seconds after the first, far beyond the
five-second bound the rule declares. -/
theorem c7_sequence_ignores_time_bug :
    c7Step1.2 = none
    ∧ (5 : Nat) < 1000000 - 0
    ∧ (c7Step2.2).map
        (fun ce => (ce.events, ce.detected_at, ce.severity))
        = some ([c7E1, c7E2], 1000000, EventCorrelation.Severity.high) := by
  refine ⟨by decide, by decide, by decide⟩
